import Mathlib

/-!
# Verification of the go-webui bridge (`src/lib.go`)

A shallow embedding of the event-binding / callback-dispatch protocol and
the synchronous script-execution protocol of the Go webui binding.

Conventions of the embedding:
* Go `Window` (an unsigned integer handle) and function ids are `Nat`.
* The process-wide registry `funcList : map[Window]map[uint]func(Event) any`
  is an association list `FuncList α`; a missing outer key in Go yields the
  zero value `nil` for the inner map, and indexing a `nil` map yields the
  zero value `nil` for the function, so a missing entry at either level is
  modelled as `none`.
* Calling a `nil` Go function value panics; a panic inside the exported
  cgo callback crashes the process.  Panics are modelled explicitly
  (`panicked` flag / `Option` results).
* The native engine is external: its observable interactions (the function
  id returned by `webui_interface_get_bind_id`, the bytes it writes into a
  script buffer, its success flag) enter the model as parameters.
-/

namespace GoWebui

/-- Go `any` values that a user callback can return, as relevant to
`json.Marshal`: `vnil` is the untyped `nil` interface value, and
`vunsupported` stands for a value of a type `encoding/json` rejects
(channel, function, complex, ...). -/
inductive GoValue where
  | vnil
  | vbool (b : Bool)
  | vint (n : Int)
  | vstr (s : String)
  | vunsupported (typeName : String)
  deriving DecidableEq, Repr

/-- Escape a character the way `encoding/json` quotes it inside a JSON
string literal (quote, backslash and the common control characters). -/
def jsonEscapeChar (c : Char) : List Char :=
  if c = '"' then ['\\', '"']
  else if c = '\\' then ['\\', '\\']
  else if c = '\n' then ['\\', 'n']
  else if c = '\t' then ['\\', 't']
  else if c = '\r' then ['\\', 'r']
  else [c]

/-- JSON string literal for `s`, following `encoding/json` quoting. -/
def jsonQuote (s : String) : String :=
  ⟨'"' :: (s.data.foldr (fun c acc => jsonEscapeChar c ++ acc) ['"'])⟩

/-- Embedding of `json.Marshal` on the value shapes of `GoValue`.
`Except` carries the error that `json.Marshal` returns for unsupported
types; on all supported shapes it succeeds. -/
def jsonMarshal : GoValue → Except String String
  | GoValue.vnil => Except.ok "null"
  | GoValue.vbool true => Except.ok "true"
  | GoValue.vbool false => Except.ok "false"
  | GoValue.vint n => Except.ok (toString n)
  | GoValue.vstr s => Except.ok (jsonQuote s)
  | GoValue.vunsupported t => Except.error ("json: unsupported type: " ++ t)

/-- Embedding of the Go `Event` struct (`src/lib.go` lines 77-82);
`Data` is a string. -/
structure Event where
  window : Nat
  eventType : Nat
  element : String
  data : String
  deriving DecidableEq

/-- The registry `funcList`: association list from window handle to the
inner association list from function id to callback.  `α` is the callback
type (instantiated with `Event → GoValue` for dispatch). -/
def FuncList (α : Type) : Type := List (Nat × List (Nat × α))

/-- Lookup of the inner map `funcList[w]`; `none` is Go's zero-value `nil`
map for a missing key. -/
def lookupWin {α : Type} : FuncList α → Nat → Option (List (Nat × α))
  | [], _ => none
  | (k, m) :: rest, w => if k = w then some m else lookupWin rest w

/-- Lookup in an inner map; `none` is Go's zero-value `nil` function. -/
def lookupFid {α : Type} : List (Nat × α) → Nat → Option α
  | [], _ => none
  | (k, cb) :: rest, fid => if k = fid then some cb else lookupFid rest fid

/-- Go map assignment `m[k] = v`: overwrite the entry if present,
otherwise append it. -/
def insertEntry {α : Type} : List (Nat × α) → Nat → α → List (Nat × α)
  | [], k, v => [(k, v)]
  | (k', v') :: rest, k, v =>
    if k' = k then (k, v) :: rest else (k', v') :: insertEntry rest k v

/-- The double lookup `funcList[w][fid]` of `goWebuiEvent`: a missing
window gives the `nil` inner map, indexing which gives the `nil` function. -/
def lookupCb {α : Type} (fl : FuncList α) (w fid : Nat) : Option α :=
  match lookupWin fl w with
  | none => none
  | some m => lookupFid m fid

/-- Observable outcome of one `goWebuiEvent` dispatch: whether the Go
runtime panicked (calling a `nil` function value), the `log.Println`
diagnostics emitted, and the responses written back through
`webui_interface_set_response`, each tagged with its event number. -/
structure DispatchResult where
  panicked : Bool
  logs : List String
  responses : List (Nat × String)
  deriving DecidableEq

/-- Embedding of `goWebuiEvent` (`src/lib.go` lines 95-114).  `getBindId`
models the engine call `webui_interface_get_bind_id(window, element)`.
The source builds the event, resolves the function id, indexes
`funcList[window][funcId]` and calls the result: when no callback is
registered that call is a `nil`-function call, which panics.  A `nil`
callback result sends no response; otherwise the `json.Marshal` output is
sent (on marshal error the failure is logged and the response is the
empty string, since `jsonRes` is the `nil` byte slice). -/
def goWebuiEvent (fl : FuncList (Event → GoValue))
    (getBindId : Nat → String → Nat)
    (window eventType : Nat) (element data : String)
    (eventNumber : Nat) : DispatchResult :=
  let e : Event := ⟨window, eventType, element, data⟩
  let funcId := getBindId window element
  match lookupCb fl window funcId with
  | none => { panicked := true, logs := [], responses := [] }
  | some cb =>
    match cb e with
    | GoValue.vnil => { panicked := false, logs := [], responses := [] }
    | result =>
      match jsonMarshal result with
      | Except.ok s =>
          { panicked := false, logs := [], responses := [(eventNumber, s)] }
      | Except.error msg =>
          { panicked := false
            logs := ["Failed encoding JS result into JSON " ++ msg]
            responses := [(eventNumber, "")] }

/-- Embedding of `NewWindow` (`src/lib.go` lines 165-169): the engine
supplies the fresh handle `w` (`webui_new_window`); the binding then
installs an empty inner callback map for it in `funcList`. -/
def NewWindow {α : Type} (fl : FuncList α) (w : Nat) : FuncList α :=
  insertEntry fl w []

/-- Embedding of `Window.Bind` (`src/lib.go` lines 213-216).
`engineFuncId` is whatever `go_webui_bind` returned over the ABI — the Go
code receives a bare `size_t` with no error channel, so an engine
rejection is indistinguishable from success and the callback is stored
under the returned id regardless.  The result is `none` exactly when the
assignment `funcList[w][funcId] = callback` writes into the `nil` inner
map of a window never set up by `NewWindow`, which panics in Go. -/
def Bind {α : Type} (fl : FuncList α) (w : Nat) (element : String)
    (callback : α) (engineFuncId : Nat) : Option (FuncList α) :=
  match lookupWin fl w with
  | none => none
  | some m => some (insertEntry fl w (insertEntry m engineFuncId callback))

/-- Application-visible operations that mutate `funcList`. -/
inductive Op (α : Type) where
  | newWindow (w : Nat)
  | bind (w : Nat) (element : String) (callback : α) (fid : Nat)
  deriving DecidableEq

/-- Run a sequence of operations from a given registry state; `none` once
a `Bind` panics (the Go process crashes, so nothing later runs). -/
def runOps {α : Type} : List (Op α) → FuncList α → Option (FuncList α)
  | [], fl => some fl
  | Op.newWindow w :: ops, fl => runOps ops (NewWindow fl w)
  | Op.bind w el cb fid :: ops, fl =>
    match Bind fl w el cb fid with
    | none => none
    | some fl2 => runOps ops fl2

/-- Embedding of `ScriptOptions` (`src/lib.go` lines 84-87). -/
structure ScriptOptions where
  Timeout : Nat
  BufferSize : Nat
  deriving DecidableEq

/-- Buffer capacity actually used by `Script`: the 8 KiB default replaces
a zero `BufferSize` (`src/lib.go` lines 121-127). -/
def effectiveBufferSize (options : ScriptOptions) : Nat :=
  if options.BufferSize = 0 then 1024 * 8 else options.BufferSize

/-- Modelled from the spec: the engine side of `webui_script` (not part
of this repository) writes the response into the caller's buffer,
truncated to `cap - 1` bytes and terminated by a null sentinel; the rest
of the buffer keeps the zero bytes Go's `make([]byte, cap)` put there. -/
def engineFill (cap : Nat) (response : List Nat) : List Nat :=
  response.take (cap - 1) ++
    List.replicate (cap - min response.length (cap - 1)) 0

/-- Embedding of `bytes.IndexByte(buffer, 0)`: index of the first zero
byte, with `none` for Go's `-1`. -/
def indexByte0 : List Nat → Option Nat
  | [] => none
  | b :: rest =>
    if b = 0 then some 0
    else
      match indexByte0 rest with
      | none => none
      | some k => some (k + 1)

/-- Embedding of `Window.Script` (`src/lib.go` lines 120-144).  The
engine's observable behaviour enters as `engineResponse` (the text it
writes) and `engineOk` (the boolean `webui_script` returns).  The result
is the pair of the returned text (as bytes) and the error (`none` for Go's
`nil`); the outer `none` models the panic of the slice `buffer[:-1]` that
the source would hit if `bytes.IndexByte` found no null byte. -/
def Script (script : String) (options : ScriptOptions)
    (engineResponse : List Nat) (engineOk : Bool) :
    Option (List Nat × Option String) :=
  let bufferSize := effectiveBufferSize options
  let buffer := engineFill bufferSize engineResponse
  let err : Option String :=
    if engineOk then none else some "Failed running JavaScript."
  match indexByte0 buffer with
  | none => none
  | some respLen => some (buffer.take respLen, err)

/-- Go `int` is 64 bits wide on every platform this binding's cgo flags
target; its maximum value. -/
def maxInt64 : Int := 9223372036854775807

/-- Minimum value of the 64-bit Go `int`. -/
def minInt64 : Int := -9223372036854775808

/-- Decimal digit value of a character, `none` for a non-digit. -/
def digitVal (c : Char) : Option Nat :=
  if '0' ≤ c ∧ c ≤ '9' then some (c.toNat - 48) else none

/-- Accumulate decimal digits; fails on the first non-digit. -/
def parseDigitsAux : List Char → Nat → Option Nat
  | [], acc => some acc
  | c :: cs, acc =>
    match digitVal c with
    | none => none
    | some d => parseDigitsAux cs (acc * 10 + d)

/-- Numeric value of a non-empty all-digit string, `none` otherwise. -/
def parseDigits : List Char → Option Nat
  | [] => none
  | cs => parseDigitsAux cs 0

/-- Digits-and-sign core of `strconv.ParseInt` for base 10 and 64-bit
size: a malformed digit string is a syntax error with value 0; a value
beyond the 64-bit bound is a range error with the clamped bound; anything
else parses cleanly.  Result is `(value, errored)`. -/
def atoiCore (neg : Bool) (digits : List Char) : Int × Bool :=
  match parseDigits digits with
  | none => (0, true)
  | some n =>
    if neg then
      if 9223372036854775808 < (n : Int) then (minInt64, true)
      else (-(n : Int), false)
    else
      if 9223372036854775807 < (n : Int) then (maxInt64, true)
      else ((n : Int), false)

/-- Embedding of `strconv.Atoi` (equivalent to
`strconv.ParseInt(s, 10, 0)` with 64-bit `int`): handles one optional
leading sign, then digits. -/
def atoi (s : String) : Int × Bool :=
  match s.data with
  | [] => (0, true)
  | c :: cs =>
    if c = '-' then atoiCore true cs
    else if c = '+' then atoiCore false cs
    else atoiCore false (c :: cs)

/-- Embedding of `Data.Int` (`src/lib.go` lines 222-228): always returns
whatever `strconv.Atoi` produced as `num`, logging a diagnostic when the
parse errored.  The second component collects the `log.Println` output. -/
def dataInt (d : String) : Int × List String :=
  ((atoi d).1,
    if (atoi d).2 then ["Failed getting event int argument"] else [])

/-- Embedding of `strconv.ParseBool`: the twelve accepted literals, with
`(false, errored)` for everything else. -/
def parseBool (s : String) : Bool × Bool :=
  if s = "1" ∨ s = "t" ∨ s = "T" ∨ s = "true" ∨ s = "TRUE" ∨ s = "True" then
    (true, false)
  else if s = "0" ∨ s = "f" ∨ s = "F" ∨ s = "false" ∨ s = "FALSE" ∨ s = "False" then
    (false, false)
  else (false, true)

/-- Embedding of `Data.Bool` (`src/lib.go` lines 230-236): returns the
`strconv.ParseBool` value, logging a diagnostic when the parse errored. -/
def dataBool (d : String) : Bool × List String :=
  ((parseBool d).1,
    if (parseBool d).2 then ["Failed getting event bool argument"] else [])

/-- C-string marshaling of the cgo boundary: `C.CString` produces a
NUL-terminated C string and the C side (and `C.GoString`) reads up to the
first NUL, so each crossing keeps only the bytes before the first zero
byte. -/
def cTruncate (s : List Nat) : List Nat := s.takeWhile (fun b => b != 0)

/-- Hex digit byte (ASCII) for a value below 16. -/
def hexDigitChar (n : Nat) : Nat := if n < 10 then 48 + n else 87 + n

/-- Value of an ASCII hex digit byte. -/
def hexVal (c : Nat) : Nat :=
  if 48 ≤ c ∧ c ≤ 57 then c - 48
  else if 97 ≤ c ∧ c ≤ 102 then c - 87
  else 0

/-- Modelled from the spec: `webui_encode` lives in the native engine
(not in this repository); the spec requires a lossless transform making
arbitrary text safe to splice into script/markup.  It is modelled as
bytewise hexadecimal encoding: each input byte becomes two ASCII
hex-digit bytes. -/
def hexEncodeBytes : List Nat → List Nat
  | [] => []
  | b :: bs => hexDigitChar (b / 16) :: hexDigitChar (b % 16) :: hexEncodeBytes bs

/-- Modelled from the spec: `webui_decode`, the inverse transform of
`hexEncodeBytes`. -/
def hexDecodeBytes : List Nat → List Nat
  | c1 :: c2 :: cs => (hexVal c1 * 16 + hexVal c2) :: hexDecodeBytes cs
  | _ => []

/-- Embedding of `Encode` (`src/lib.go` lines 151-153): the Go string
crosses the cgo boundary (truncating at the first NUL), the engine
encodes the bytes it sees, and the result crosses back. -/
def Encode (s : List Nat) : List Nat := cTruncate (hexEncodeBytes (cTruncate s))

/-- Embedding of `Decode` (`src/lib.go` lines 155-157). -/
def Decode (s : List Nat) : List Nat := cTruncate (hexDecodeBytes (cTruncate s))

end GoWebui

namespace GoWebui

/-- C1: the code's actual behaviour on an unregistered pair — `goWebuiEvent`
indexes `funcList[window][funcId]`, obtains the `nil` zero-value function
and calls it, so the dispatch panics (crashing the process), emits no log
and writes no response. -/
theorem dispatch_unregistered_panics
    (fl : FuncList (Event → GoValue)) (getBindId : Nat → String → Nat)
    (window eventType : Nat) (element data : String) (eventNumber : Nat)
    (h : lookupCb fl window (getBindId window element) = none) :
    goWebuiEvent fl getBindId window eventType element data eventNumber =
      { panicked := true, logs := [], responses := [] } := by
  unfold goWebuiEvent
  simp [h]

/-- C1 witness: a concrete dispatch against an empty registry panics with
no log and no response. -/
theorem dispatch_unregistered_panics_witness :
    goWebuiEvent ([] : FuncList (Event → GoValue)) (fun _ _ => 5) 1 6 "x" "" 7 =
      { panicked := true, logs := [], responses := [] } :=
  dispatch_unregistered_panics [] (fun _ _ => 5) 1 6 "x" "" 7 rfl

/-- C2: dispatch of a registered callback sends no response when the
callback returns `nil`, and exactly one response — the JSON encoding of
the returned value, tagged with the dispatch's event number — when it
returns a value whose serialization succeeds.  No panic, no log, in
either case. -/
theorem dispatch_registered_responses
    (fl : FuncList (Event → GoValue)) (getBindId : Nat → String → Nat)
    (window eventType : Nat) (element data : String) (eventNumber : Nat)
    (cb : Event → GoValue)
    (hcb : lookupCb fl window (getBindId window element) = some cb) :
    (cb ⟨window, eventType, element, data⟩ = GoValue.vnil →
      goWebuiEvent fl getBindId window eventType element data eventNumber =
        { panicked := false, logs := [], responses := [] }) ∧
    (∀ s, cb ⟨window, eventType, element, data⟩ ≠ GoValue.vnil →
      jsonMarshal (cb ⟨window, eventType, element, data⟩) = Except.ok s →
      goWebuiEvent fl getBindId window eventType element data eventNumber =
        { panicked := false, logs := [], responses := [(eventNumber, s)] }) := by
  constructor
  · intro hnil
    unfold goWebuiEvent
    simp [hcb, hnil]
  · intro s hne hok
    unfold goWebuiEvent
    simp only [hcb]
    cases hv : cb ⟨window, eventType, element, data⟩ with
    | vnil => exact absurd hv hne
    | vbool b => rw [hv] at hok; simp [hok]
    | vint n => rw [hv] at hok; simp [hok]
    | vstr str => rw [hv] at hok; simp [hok]
    | vunsupported t => rw [hv] at hok; simp [jsonMarshal] at hok

/-- C2 witness: with a callback returning the integer `7` registered at
`(1, 5)`, dispatch with event number `9` writes exactly the response
`(9, "7")`; a sibling callback returning `nil` writes none. -/
theorem dispatch_registered_responses_witness :
    goWebuiEvent [(1, [(5, fun _ => GoValue.vint 7)])] (fun _ _ => 5) 1 6 "x" "" 9 =
      { panicked := false, logs := [], responses := [(9, "7")] } ∧
    goWebuiEvent [(1, [(5, fun _ => GoValue.vnil)])] (fun _ _ => 5) 1 6 "x" "" 9 =
      { panicked := false, logs := [], responses := [] } := by
  constructor
  · exact (dispatch_registered_responses [(1, [(5, fun _ => GoValue.vint 7)])]
      (fun _ _ => 5) 1 6 "x" "" 9 (fun _ => GoValue.vint 7) rfl).2 "7"
      (by intro h; exact GoValue.noConfusion h) rfl
  · exact (dispatch_registered_responses [(1, [(5, fun _ => GoValue.vnil)])]
      (fun _ _ => 5) 1 6 "x" "" 9 (fun _ => GoValue.vnil) rfl).1 rfl

/-- C3: when serialization of a non-nil callback result fails, the failure
is logged, the dispatch does not panic, and the attempted (empty) response
is still written for that event number — `jsonRes` is the `nil` byte slice,
so `string(jsonRes)` is `""`. -/
theorem dispatch_marshal_failure
    (fl : FuncList (Event → GoValue)) (getBindId : Nat → String → Nat)
    (window eventType : Nat) (element data : String) (eventNumber : Nat)
    (cb : Event → GoValue) (msg : String)
    (hcb : lookupCb fl window (getBindId window element) = some cb)
    (hne : cb ⟨window, eventType, element, data⟩ ≠ GoValue.vnil)
    (herr : jsonMarshal (cb ⟨window, eventType, element, data⟩) =
      Except.error msg) :
    goWebuiEvent fl getBindId window eventType element data eventNumber =
      { panicked := false
        logs := ["Failed encoding JS result into JSON " ++ msg]
        responses := [(eventNumber, "")] } := by
  unfold goWebuiEvent
  simp only [hcb]
  cases hv : cb ⟨window, eventType, element, data⟩ with
  | vnil => exact absurd hv hne
  | vbool b => rw [hv] at herr; cases b <;> simp_all
  | vint n => rw [hv] at herr; simp_all [jsonMarshal]
  | vstr str => rw [hv] at herr; simp_all [jsonMarshal]
  | vunsupported t =>
    rw [hv] at herr
    simp only [jsonMarshal, Except.error.injEq] at herr
    subst herr
    simp [jsonMarshal]

/-- C3 witness: a callback returning an unserializable value (a channel)
makes the dispatch log the marshal failure and still send the empty
response tagged with event number `3`. -/
theorem dispatch_marshal_failure_witness :
    goWebuiEvent [(2, [(4, fun _ => GoValue.vunsupported "chan int")])]
      (fun _ _ => 4) 2 6 "el" "d" 3 =
      { panicked := false
        logs := ["Failed encoding JS result into JSON json: unsupported type: chan int"]
        responses := [(3, "")] } :=
  dispatch_marshal_failure [(2, [(4, fun _ => GoValue.vunsupported "chan int")])]
    (fun _ _ => 4) 2 6 "el" "d" 3 (fun _ => GoValue.vunsupported "chan int")
    "json: unsupported type: chan int" rfl
    (by intro h; exact GoValue.noConfusion h) rfl

/-- Inserting at key `x` makes exactly key `x` map to the new value and
leaves every other key's lookup unchanged. -/
theorem lookupWin_insertEntry {α : Type} (fl : FuncList α) (x w : Nat)
    (v : List (Nat × α)) :
    lookupWin (insertEntry fl x v) w = if x = w then some v else lookupWin fl w := by
  induction fl with
  | nil => simp [insertEntry, lookupWin]
  | cons p rest ih =>
    obtain ⟨k, m⟩ := p
    simp only [insertEntry]
    by_cases hkx : k = x
    · subst hkx
      simp only [if_pos rfl]
      by_cases hkw : k = w <;> simp [lookupWin, hkw]
    · simp only [if_neg hkx]
      by_cases hkw : k = w
      · subst hkw
        have hxk : ¬ x = k := fun h => hkx h.symm
        simp [lookupWin, hxk]
      · simp [lookupWin, hkw, ih]

/-- C4: `Bind` carries no error channel: for a window present in the
registry it completes successfully for every function id the engine
returned — in particular for the id a rejected bind produces — silently
storing the callback under that id; the caller receives nothing either
way. -/
theorem bind_never_surfaces_errors {α : Type} (fl : FuncList α) (w : Nat)
    (element : String) (callback : α) (engineFuncId : Nat)
    (m : List (Nat × α)) (hw : lookupWin fl w = some m) :
    Bind fl w element callback engineFuncId =
      some (insertEntry fl w (insertEntry m engineFuncId callback)) := by
  unfold Bind
  simp [hw]

/-- C4 witness: on a freshly created window, a bind whose engine call was
rejected (returning id `0`) still completes without any error, silently
registering the callback under id `0`. -/
theorem bind_never_surfaces_errors_witness :
    Bind [(1, ([] : List (Nat × Nat)))] 1 "submit" 42 0 =
      some [(1, [(0, 42)])] :=
  bind_never_surfaces_errors [(1, [])] 1 "submit" 42 0 [] rfl

/-- Effective buffer size is always positive. -/
theorem effectiveBufferSize_pos (options : ScriptOptions) :
    1 ≤ effectiveBufferSize options := by
  unfold effectiveBufferSize
  split <;> omega

/-- First zero byte of `l ++ 0 :: t` when `l` has no zero byte. -/
theorem indexByte0_append_zero (l t : List Nat) (h : ¬ 0 ∈ l) :
    indexByte0 (l ++ 0 :: t) = some l.length := by
  induction l with
  | nil => simp [indexByte0]
  | cons b rest ih =>
    have hb : ¬ b = 0 := fun hb0 => h (by simp [hb0])
    have hrest : ¬ 0 ∈ rest := fun hm => h (List.mem_cons_of_mem _ hm)
    simp [indexByte0, hb, ih hrest]

/-- A list containing a zero byte has a first zero byte. -/
theorem indexByte0_isSome_of_mem (l : List Nat) (h : 0 ∈ l) :
    ∃ k, indexByte0 l = some k := by
  induction l with
  | nil => cases h
  | cons b rest ih =>
    by_cases hb : b = 0
    · exact ⟨0, by simp [indexByte0, hb]⟩
    · have hm : 0 ∈ rest := by
        cases h with
        | head => exact absurd rfl hb
        | tail _ hm => exact hm
      obtain ⟨k, hk⟩ := ih hm
      exact ⟨k + 1, by simp [indexByte0, hb, hk]⟩

/-- C5: with `BufferSize` zero the capacity used is 8192; the returned
text is the buffer content up to the first null sentinel, so an engine
response longer than `capacity - 1` bytes comes back truncated to exactly
`capacity - 1` bytes. -/
theorem script_default_buffer_and_truncation (script : String)
    (options : ScriptOptions) (r : List Nat) (engineOk : Bool)
    (h0 : ¬ 0 ∈ r) (hlen : effectiveBufferSize options - 1 < r.length) :
    Script script options r engineOk =
      some (r.take (effectiveBufferSize options - 1),
        if engineOk then none else some "Failed running JavaScript.") ∧
    (r.take (effectiveBufferSize options - 1)).length =
      effectiveBufferSize options - 1 ∧
    effectiveBufferSize ⟨options.Timeout, 0⟩ = 8192 := by
  have hcap : 1 ≤ effectiveBufferSize options := effectiveBufferSize_pos options
  set cap := effectiveBufferSize options with hc
  have hmin : min r.length (cap - 1) = cap - 1 := by omega
  have hrep : cap - min r.length (cap - 1) = 1 := by omega
  have hbuf : engineFill cap r = r.take (cap - 1) ++ 0 :: [] := by
    unfold engineFill
    rw [hrep]
    rfl
  have h0t : ¬ 0 ∈ r.take (cap - 1) := fun hmem => h0 (List.take_subset _ _ hmem)
  have hlen' : (r.take (cap - 1)).length = cap - 1 := by
    simp only [List.length_take]
    omega
  refine ⟨?_, hlen', by norm_num [effectiveBufferSize]⟩
  have hscript : Script script options r engineOk =
      match indexByte0 (engineFill cap r) with
      | none => none
      | some respLen =>
          some ((engineFill cap r).take respLen,
            if engineOk then none else some "Failed running JavaScript.") := rfl
  rw [hscript, hbuf, indexByte0_append_zero _ _ h0t]
  simp only [hlen']
  nth_rewrite 1 [← hlen']
  rw [List.take_left]

/-- C5 witness: buffer capacity 4 with a 5-byte response yields exactly
the first 3 bytes; capacity defaults to 8192 when `BufferSize` is 0. -/
theorem script_default_buffer_and_truncation_witness :
    Script "x" ⟨0, 4⟩ [1, 2, 3, 4, 5] true = some ([1, 2, 3], none) ∧
    ([1, 2, 3] : List Nat).length = 3 ∧
    effectiveBufferSize ⟨0, 0⟩ = 8192 := by
  have h := script_default_buffer_and_truncation "x" ⟨0, 4⟩ [1, 2, 3, 4, 5]
    true (by decide) (by decide)
  exact ⟨by simpa [effectiveBufferSize] using h.1, by decide, by decide⟩

/-- C6: when the engine reports failure, `Script` returns the non-nil
generic error together with the same partial text — the buffer content up
to the sentinel — that a successful call would have returned. -/
theorem script_failure_returns_partial (script : String)
    (options : ScriptOptions) (r : List Nat) :
    ∃ resp,
      Script script options r false =
        some (resp, some "Failed running JavaScript.") ∧
      Script script options r true = some (resp, none) := by
  have hmem : 0 ∈ engineFill (effectiveBufferSize options) r := by
    unfold engineFill
    apply List.mem_append_right
    apply List.mem_replicate.mpr
    have h1 : 1 ≤ effectiveBufferSize options := effectiveBufferSize_pos options
    have h2 : min r.length (effectiveBufferSize options - 1) ≤
        effectiveBufferSize options - 1 := min_le_right _ _
    exact ⟨by omega, rfl⟩
  obtain ⟨k, hk⟩ := indexByte0_isSome_of_mem _ hmem
  have hs : ∀ ok : Bool, Script script options r ok =
      match indexByte0 (engineFill (effectiveBufferSize options) r) with
      | none => none
      | some respLen =>
          some ((engineFill (effectiveBufferSize options) r).take respLen,
            if ok then none else some "Failed running JavaScript.") :=
    fun _ => rfl
  refine ⟨(engineFill (effectiveBufferSize options) r).take k, ?_, ?_⟩
  · rw [hs, hk]
    rfl
  · rw [hs, hk]
    rfl

/-- Running a sequence of operations from `fl` ends with window `w` in
the registry exactly when `w` was created along the way or was present at
the start. -/
theorem runOps_windows {α : Type} (ops : List (Op α)) (fl fl' : FuncList α)
    (w : Nat) (h : runOps ops fl = some fl') :
    ((lookupWin fl' w).isSome = true ↔
      Op.newWindow w ∈ ops ∨ (lookupWin fl w).isSome = true) := by
  induction ops generalizing fl with
  | nil =>
    simp only [runOps, Option.some.injEq] at h
    subst h
    simp
  | cons op ops ih =>
    cases op with
    | newWindow v =>
      simp only [runOps] at h
      rw [ih (NewWindow fl v) h]
      unfold NewWindow
      rw [lookupWin_insertEntry]
      by_cases hvw : v = w
      · subst hvw
        simp [List.mem_cons]
      · simp only [List.mem_cons, if_neg hvw]
        constructor
        · rintro (hmem | hs)
          · exact Or.inl (Or.inr hmem)
          · exact Or.inr hs
        · rintro ((heq | hmem) | hs)
          · injection heq with hwv
            exact absurd hwv.symm hvw
          · exact Or.inl hmem
          · exact Or.inr hs
    | bind v el cb fid =>
      simp only [runOps] at h
      cases hB : Bind fl v el cb fid with
      | none => rw [hB] at h; cases h
      | some fl2 =>
        rw [hB] at h
        rw [ih fl2 h]
        unfold Bind at hB
        cases hm : lookupWin fl v with
        | none => rw [hm] at hB; cases hB
        | some m =>
          rw [hm] at hB
          injection hB with hB2
          subst hB2
          rw [lookupWin_insertEntry]
          by_cases hvw : v = w
          · subst hvw
            simp [hm, List.mem_cons]
          · simp only [if_neg hvw, List.mem_cons]
            constructor
            · rintro (hmem | hs)
              · exact Or.inl (Or.inr hmem)
              · exact Or.inr hs
            · rintro ((heq | hmem) | hs)
              · exact Op.noConfusion heq
              · exact Or.inl hmem
              · exact Or.inr hs

/-- C10: starting from the empty registry, `Bind` on window `w` completes
without panicking exactly when an earlier `NewWindow` call returned `w`:
`NewWindow` installs the (initially empty) inner map, and without it the
assignment into the nil inner map panics. -/
theorem bind_no_panic_iff_created {α : Type} (ops : List (Op α))
    (fl' : FuncList α) (w : Nat) (element : String) (callback : α) (fid : Nat)
    (h : runOps ops [] = some fl') :
    ((Bind fl' w element callback fid).isSome = true ↔ Op.newWindow w ∈ ops) := by
  have hw := runOps_windows ops [] fl' w h
  have hnil : lookupWin ([] : FuncList α) w = none := rfl
  rw [hnil] at hw
  simp only [Option.isSome_none, Bool.false_eq_true, or_false] at hw
  unfold Bind
  cases hlw : lookupWin fl' w with
  | none =>
    rw [hlw] at hw
    simp only [Option.isSome_none, Bool.false_eq_true, false_iff] at hw
    simpa using hw
  | some m =>
    rw [hlw] at hw
    simp only [Option.isSome_some, true_iff] at hw
    simpa using hw

/-- C10 witness: after creating window 1 only, binding on window 1
succeeds and binding on window 2 panics. -/
theorem bind_no_panic_iff_created_witness :
    ((Bind [(1, ([] : List (Nat × Nat)))] 1 "submit" 7 0).isSome = true ↔
      Op.newWindow 1 ∈ ([Op.newWindow 1] : List (Op Nat))) ∧
    ((Bind [(1, ([] : List (Nat × Nat)))] 2 "submit" 7 0).isSome = true ↔
      Op.newWindow 2 ∈ ([Op.newWindow 1] : List (Op Nat))) :=
  ⟨bind_no_panic_iff_created [Op.newWindow 1] [(1, [])] 1 "submit" 7 0 rfl,
   bind_no_panic_iff_created [Op.newWindow 1] [(1, [])] 2 "submit" 7 0 rfl⟩

/-- On a parse error, `atoiCore` yields 0 (syntax) or a clamped 64-bit
bound (range). -/
theorem atoiCore_error_values (neg : Bool) (ds : List Char)
    (h : (atoiCore neg ds).2 = true) :
    (atoiCore neg ds).1 = 0 ∨ (atoiCore neg ds).1 = maxInt64 ∨
      (atoiCore neg ds).1 = minInt64 := by
  cases hp : parseDigits ds with
  | none =>
    have he : atoiCore neg ds = (0, true) := by
      unfold atoiCore
      rw [hp]
    rw [he]
    simp
  | some n =>
    have he : atoiCore neg ds =
        if neg then
          if 9223372036854775808 < (n : Int) then (minInt64, true)
          else (-(n : Int), false)
        else
          if 9223372036854775807 < (n : Int) then (maxInt64, true)
          else ((n : Int), false) := by
      unfold atoiCore
      rw [hp]
    rw [he] at h ⊢
    cases neg with
    | true =>
      by_cases hr : 9223372036854775808 < (n : Int)
      · simp [hr]
      · simp [hr] at h
    | false =>
      by_cases hr : 9223372036854775807 < (n : Int)
      · simp [hr]
      · simp [hr] at h

/-- On a parse error, `atoi` yields 0 or a clamped 64-bit bound. -/
theorem atoi_error_values (s : String) (h : (atoi s).2 = true) :
    (atoi s).1 = 0 ∨ (atoi s).1 = maxInt64 ∨ (atoi s).1 = minInt64 := by
  cases hd : s.data with
  | nil =>
    have he : atoi s = (0, true) := by
      unfold atoi
      rw [hd]
    rw [he]
    simp
  | cons c cs =>
    have he : atoi s =
        if c = '-' then atoiCore true cs
        else if c = '+' then atoiCore false cs
        else atoiCore false (c :: cs) := by
      unfold atoi
      rw [hd]
    rw [he] at h ⊢
    by_cases hneg : c = '-'
    · rw [if_pos hneg] at h ⊢
      exact atoiCore_error_values true cs h
    · rw [if_neg hneg] at h ⊢
      by_cases hpos : c = '+'
      · rw [if_pos hpos] at h ⊢
        exact atoiCore_error_values false cs h
      · rw [if_neg hpos] at h ⊢
        exact atoiCore_error_values false (c :: cs) h

/-- C7 counterexample: on the out-of-range payload
`"9223372036854775808"` the parse fails and is logged, yet `Data.Int`
returns the clamped value 9223372036854775807 — not 0 as claimed. -/
theorem dataInt_range_error_not_zero :
    dataInt "9223372036854775808" =
      (9223372036854775807, ["Failed getting event int argument"]) ∧
    (9223372036854775807 : Int) ≠ 0 := by
  constructor
  · rfl
  · decide

/-- C7 amended: `Data.Int` returns the parsed integer on success; on a
parse failure it logs, returning 0 for malformed input but the clamped
64-bit bound for out-of-range input.  `Data.Bool` returns the parsed
boolean on success and logs and returns `false` on failure.  Parse
failures never propagate as errors: both accessors always return a
value. -/
theorem data_accessors_parse_behavior (d : String) :
    dataInt "42" = (42, []) ∧
    dataInt "not-a-number" = (0, ["Failed getting event int argument"]) ∧
    dataBool "true" = (true, []) ∧
    dataBool "nonsense" = (false, ["Failed getting event bool argument"]) ∧
    ((dataInt d).2 ≠ [] →
      (dataInt d).1 = 0 ∨ (dataInt d).1 = maxInt64 ∨ (dataInt d).1 = minInt64) ∧
    ((dataBool d).2 ≠ [] → (dataBool d).1 = false) := by
  refine ⟨by decide, by decide, by decide, by decide, ?_, ?_⟩
  · intro hlog
    have herr : (atoi d).2 = true := by
      by_contra hne
      simp only [Bool.not_eq_true] at hne
      simp [dataInt, hne] at hlog
    have h1 : (dataInt d).1 = (atoi d).1 := rfl
    rw [h1]
    exact atoi_error_values d herr
  · intro hlog
    have herr : (parseBool d).2 = true := by
      by_contra hne
      simp only [Bool.not_eq_true] at hne
      simp [dataBool, hne] at hlog
    have h1 : (dataBool d).1 = (parseBool d).1 := rfl
    rw [h1]
    unfold parseBool at herr ⊢
    split_ifs at herr ⊢
    rfl

/-- C7 amended witness: concrete payloads exercising every clause,
including the range-clamped path. -/
theorem data_accessors_parse_behavior_witness :
    (dataInt "9999999999999999999999").1 = 0 ∨
      (dataInt "9999999999999999999999").1 = maxInt64 ∨
      (dataInt "9999999999999999999999").1 = minInt64 := by
  have h := data_accessors_parse_behavior "9999999999999999999999"
  exact h.2.2.2.2.1 (by decide)

/-- A hex digit byte decodes back to its value. -/
theorem hexVal_hexDigitChar (n : Nat) (h : n < 16) :
    hexVal (hexDigitChar n) = n := by
  unfold hexDigitChar hexVal
  split_ifs <;> omega

/-- Hex digit bytes are never NUL. -/
theorem hexDigitChar_ne_zero (n : Nat) : hexDigitChar n ≠ 0 := by
  unfold hexDigitChar
  split <;> omega

/-- The hex encoding of any byte string contains no NUL byte. -/
theorem hexEncodeBytes_no_zero (l : List Nat) :
    ∀ c ∈ hexEncodeBytes l, c ≠ 0 := by
  induction l with
  | nil => intro c hc; cases hc
  | cons b bs ih =>
    intro c hc
    simp only [hexEncodeBytes, List.mem_cons] at hc
    rcases hc with h1 | h2 | h3
    · rw [h1]; exact hexDigitChar_ne_zero _
    · rw [h2]; exact hexDigitChar_ne_zero _
    · exact ih c h3

/-- `cTruncate` is the identity on NUL-free byte strings. -/
theorem cTruncate_eq_self (l : List Nat) (h : ∀ b ∈ l, b ≠ 0) :
    cTruncate l = l := by
  induction l with
  | nil => rfl
  | cons b bs ih =>
    have hb : (b != 0) = true := by
      simpa using h b (List.mem_cons_self b bs)
    simp only [cTruncate, List.takeWhile]
    rw [hb]
    simp only [cTruncate] at ih
    rw [ih (fun x hx => h x (List.mem_cons_of_mem _ hx))]

/-- Hex decoding inverts hex encoding on byte strings. -/
theorem hexDecodeBytes_hexEncodeBytes (l : List Nat)
    (h : ∀ b ∈ l, b < 256) :
    hexDecodeBytes (hexEncodeBytes l) = l := by
  induction l with
  | nil => rfl
  | cons b bs ih =>
    have hb : b < 256 := h b (List.mem_cons_self b bs)
    have hrest := ih (fun x hx => h x (List.mem_cons_of_mem _ hx))
    simp only [hexEncodeBytes, hexDecodeBytes]
    rw [hexVal_hexDigitChar (b / 16) (by omega),
      hexVal_hexDigitChar (b % 16) (by omega), hrest]
    congr 1
    omega

/-- C8 counterexample: the one-byte string holding a NUL byte does not
round-trip — `C.CString` truncates it before the engine ever sees it, so
it decodes to the empty string. -/
theorem decode_encode_nul_byte_lost : ¬ Decode (Encode [0]) = [0] := by
  decide

/-- C8 amended: `Decode (Encode s) = s` for every NUL-free byte string
`s` (including the empty string and strings with control or
markup-sensitive bytes); a string containing a NUL byte instead comes
back truncated at its first NUL, because each crossing of the cgo
boundary marshals through NUL-terminated C strings. -/
theorem decode_encode_roundtrip (s : List Nat) (hb : ∀ b ∈ s, b < 256)
    (h0 : ¬ 0 ∈ s) : Decode (Encode s) = s := by
  have hnz : ∀ b ∈ s, b ≠ 0 := fun b hbs hb0 => h0 (hb0 ▸ hbs)
  have hts : cTruncate s = s := cTruncate_eq_self s hnz
  unfold Encode Decode
  rw [hts, cTruncate_eq_self _ (hexEncodeBytes_no_zero s),
    cTruncate_eq_self _ (hexEncodeBytes_no_zero s),
    hexDecodeBytes_hexEncodeBytes s hb, hts]

/-- C8 amended witness: the bytes of `"<hi>"` (markup-sensitive) and of a
string with a control byte round-trip exactly. -/
theorem decode_encode_roundtrip_witness :
    Decode (Encode [60, 104, 105, 62]) = [60, 104, 105, 62] ∧
    Decode (Encode [27, 10, 9]) = [27, 10, 9] :=
  ⟨decode_encode_roundtrip [60, 104, 105, 62] (by decide) (by decide),
   decode_encode_roundtrip [27, 10, 9] (by decide) (by decide)⟩

end GoWebui
